import Mathlib

/-!
Shallow embedding of the parallel rendering dispatch and result-aggregation
harness of SmallVCM (src/smallvcm.cxx): the `Config` algorithm selector with
its name/acronym lookup tables, the `render` function (renderer factory
switch, max-path-length assignment, iteration dispatch, framebuffer merge
and normalization, timing), and the scene sweep of `main`.

Machine integers are modelled as `Int`/`Nat` (no overflow is reachable for
the quantities involved), framebuffer elements as `Rat` (the C code uses
`float`; the merge/scale structure is what is verified, with exact
arithmetic standing in for floating point).
-/

namespace SmallVCM

/-- The `Config::Algorithm` enumeration (smallvcm.cxx lines 24-34).
The sentinel `kAlgorithmMax` is the count 7, kept as a separate constant. -/
inductive Algorithm
  | kEyeLight
  | kPathTracing
  | kLightTracing
  | kProgressivePhotonMapping
  | kBidirectionalPhotonMapping
  | kBidirectionalPathTracing
  | kVertexConnectionMerging
  deriving DecidableEq, Repr

/-- Numeric value of each enumerator, as assigned by C++. -/
def Algorithm.toInt : Algorithm → ℤ
  | .kEyeLight => 0
  | .kPathTracing => 1
  | .kLightTracing => 2
  | .kProgressivePhotonMapping => 3
  | .kBidirectionalPhotonMapping => 4
  | .kBidirectionalPathTracing => 5
  | .kVertexConnectionMerging => 6

/-- `Config::kAlgorithmMax`, the enumerator following the seven algorithms. -/
def kAlgorithmMax : ℤ := 7

/-- The 7-entry `algorithmNames` table of `Config::GetName` (lines 38-46). -/
def algorithmNames : List String :=
  [ "Eye Light (L.N, DotLN)",
    "Path Tracing",
    "Light Tracing",
    "Progressive Photon Mapping",
    "Bidirectional Photon Mapping",
    "Bidirectional Path Tracing",
    "Vertex Connection Merging" ]

/-- The 7-entry acronym table of `Config::GetAcronym` (lines 55-56). -/
def algorithmAcronyms : List String :=
  [ "el", "pt", "lt", "ppm", "bpm", "bpt", "vcm" ]

/-- `Config::GetName` (lines 36-51) on the raw integer value of the
selector.  The guard is the source's `mAlgorithm < 0 || mAlgorithm > 7`;
an access past the end of the 7-entry table (undefined behaviour in C++)
is rendered as `none`. -/
def GetName (mAlgorithm : ℤ) : Option String :=
  if mAlgorithm < 0 ∨ mAlgorithm > 7 then some "Uknown algorithm"
  else algorithmNames[mAlgorithm.toNat]?

/-- `Config::GetAcronym` (lines 53-61), same guard and table shape. -/
def GetAcronym (mAlgorithm : ℤ) : Option String :=
  if mAlgorithm < 0 ∨ mAlgorithm > 7 then some "uknown"
  else algorithmAcronyms[mAlgorithm.toNat]?

/-- C6: the range checks guarding the 7-entry name and acronym tables are
off-by-one-tolerant: the unknown marker is returned exactly for selector
values < 0 or > 7, so the value 7 passes the guard and indexes past a
table whose valid indices are 0..6 (rendered as `none`). -/
theorem C6_lookup_guard_off_by_one :
    GetName 7 = none ∧ GetAcronym 7 = none ∧
    algorithmNames.length = 7 ∧ algorithmAcronyms.length = 7 ∧
    (∀ a : ℤ, GetName a = some "Uknown algorithm" ↔ a < 0 ∨ a > 7) ∧
    (∀ a : ℤ, GetAcronym a = some "uknown" ↔ a < 0 ∨ a > 7) := by
  refine ⟨by decide, by decide, by decide, by decide, ?_, ?_⟩ <;> intro a
  · by_cases h : a < 0 ∨ a > 7
    · simp [GetName, h]
    · push_neg at h
      obtain ⟨h0, h7⟩ := h
      constructor
      · intro hEq
        exfalso
        interval_cases a <;> revert hEq <;> decide
      · intro hc
        exfalso
        rcases hc with hc | hc <;> omega
  · by_cases h : a < 0 ∨ a > 7
    · simp [GetAcronym, h]
    · push_neg at h
      obtain ⟨h0, h7⟩ := h
      constructor
      · intro hEq
        exfalso
        interval_cases a <;> revert hEq <;> decide
      · intro hc
        exfalso
        rcases hc with hc | hc <;> omega

/-- Witness for C6: the guard fires at the concrete out-of-range value 8. -/
theorem C6_lookup_guard_off_by_one_witness :
    GetName 8 = some "Uknown algorithm" :=
  (C6_lookup_guard_off_by_one.2.2.2.2.1 8).mpr (Or.inr (by decide))

/-- The concrete renderer variant constructed by each branch of the switch
in `render` (lines 82-120): `EyeLight`, `PathTracer`, or `VertexCM` with one
of the five transport modes `kLightTrace`, `kPpm`, `kBpm`, `kBpt`, `kVcm`. -/
inductive RendererVariant
  | eyeLight
  | pathTracer
  | vertexCMLightTrace
  | vertexCMPpm
  | vertexCMBpm
  | vertexCMBpt
  | vertexCMVcm
  deriving DecidableEq, Repr

/-- Modelled from the spec: the state of one renderer instance as the
harness observes it through the `AbstractRenderer` interface (the renderer
headers eyelight.hxx, pathtracer.hxx, vertexcm.hxx, framebuffer.hxx are not
part of the given source).  It records which concrete variant was
constructed, the seed the constructor received (`none` for `EyeLight`,
whose constructor takes only the scene), the `mMaxPathLength` field
assigned at line 123, and the list of iteration indices passed to
`RunIteration`, from which `WasUsed` is derived: the used flag is false
until the first iteration executes. -/
structure Renderer where
  variant : RendererVariant
  seed : Option ℤ
  mMaxPathLength : ℕ
  itersRun : List ℕ
  deriving DecidableEq, Repr

/-- `AbstractRenderer::WasUsed`: true once at least one iteration ran. -/
def Renderer.WasUsed (r : Renderer) : Bool := !r.itersRun.isEmpty

/-- `AbstractRenderer::RunIteration(iter)`: the instance advances its own
accumulation state by the iteration with the given index. -/
def Renderer.RunIteration (r : Renderer) (iter : ℕ) : Renderer :=
  { r with itersRun := r.itersRun ++ [iter] }

/-- The `Config` input bundle (lines 22-70); the scene pointer and the
output framebuffer pointer are passed separately to the model of `render`.
`mIterations` is a C `int`, hence `ℤ`; `mNumThreads` is kept as `ℕ`
(the caller always computes a positive count, line 180). -/
structure Config where
  mAlgorithm : Algorithm
  mIterations : ℤ
  mNumThreads : ℕ
  mBaseSeed : ℤ
  mMaxPathLength : ℕ
  deriving DecidableEq, Repr

/-- One branch of the construction switch of `render` (lines 82-120):
the renderer built for worker slot `i`.  Every branch except `kEyeLight`
passes `aConfig.mBaseSeed + i` to the constructor; the `EyeLight`
constructor takes no seed. -/
def makeRenderer (alg : Algorithm) (baseSeed : ℤ) (i : ℕ) : Renderer :=
  match alg with
  | .kEyeLight =>
      { variant := .eyeLight, seed := none, mMaxPathLength := 0, itersRun := [] }
  | .kPathTracing =>
      { variant := .pathTracer, seed := some (baseSeed + i), mMaxPathLength := 0, itersRun := [] }
  | .kLightTracing =>
      { variant := .vertexCMLightTrace, seed := some (baseSeed + i), mMaxPathLength := 0, itersRun := [] }
  | .kProgressivePhotonMapping =>
      { variant := .vertexCMPpm, seed := some (baseSeed + i), mMaxPathLength := 0, itersRun := [] }
  | .kBidirectionalPhotonMapping =>
      { variant := .vertexCMBpm, seed := some (baseSeed + i), mMaxPathLength := 0, itersRun := [] }
  | .kBidirectionalPathTracing =>
      { variant := .vertexCMBpt, seed := some (baseSeed + i), mMaxPathLength := 0, itersRun := [] }
  | .kVertexConnectionMerging =>
      { variant := .vertexCMVcm, seed := some (baseSeed + i), mMaxPathLength := 0, itersRun := [] }

/-- The iteration count actually dispatched, after the switch's override
`iterations = 1` in the `kEyeLight` branch (lines 81-89 and the comment
"iterations have no meaning for kEyeLight"). -/
def effectiveIterations (cfg : Config) : ℤ :=
  match cfg.mAlgorithm with
  | .kEyeLight => 1
  | _ => cfg.mIterations

/-- The number of passes of the C loop `for(iter=0; iter<iterations; iter++)`
(line 127): zero when `iterations` is zero or negative. -/
def numIters (cfg : Config) : ℕ := (effectiveIterations cfg).toNat

/-- The per-slot construction loop of the switch (lines 82-120), as a
function from slot index to instance; `render` only ever reads slots
`< mNumThreads`. -/
def constructRenderers (cfg : Config) : ℕ → Renderer :=
  fun i => makeRenderer cfg.mAlgorithm cfg.mBaseSeed i

/-- The loop `for(i) renderers[i]->mMaxPathLength = aConfig.mMaxPathLength`
(lines 122-123): it runs over exactly the slots `0..mNumThreads-1`. -/
def setMaxPathLengths (cfg : Config) (ws : ℕ → Renderer) : ℕ → Renderer :=
  fun i =>
    if i < cfg.mNumThreads then { ws i with mMaxPathLength := cfg.mMaxPathLength }
    else ws i

/-- Renderer construction followed by the max-path-length assignment: the
state of the `renderers` array when the dispatch loop starts (line 126). -/
def setupRenderers (cfg : Config) : ℕ → Renderer :=
  setMaxPathLengths cfg (constructRenderers cfg)

/-- One pass of the OpenMP-parallel loop body (lines 128-131): iteration
`iter` executes on the worker `sched iter` (the value `omp_get_thread_num()`
returns in the pass processing `iter`), which calls `RunIteration iter` on
the renderer statically bound to that slot. -/
def dispatchStep (sched : ℕ → ℕ) (ws : ℕ → Renderer) (iter : ℕ) : ℕ → Renderer :=
  fun j => if j = sched iter then (ws j).RunIteration iter else ws j

/-- The `#pragma omp parallel for` dispatch loop (lines 126-131): every
index in `0..numIter-1` is processed exactly once, each on the worker the
schedule assigns to it.  Because each pass mutates only the renderer of
its own worker, any interleaving is equivalent to this index-ordered fold. -/
def dispatch (sched : ℕ → ℕ) (numIter : ℕ) (ws : ℕ → Renderer) : ℕ → Renderer :=
  (List.range numIter).foldl (dispatchStep sched) ws

/-- Modelled from the spec: `Framebuffer::Add` (framebuffer.hxx is not
part of the given source) adds the other buffer elementwise. -/
def FBAdd (a tmp : List ℚ) : List ℚ := List.zipWith (· + ·) a tmp

/-- Modelled from the spec: `Framebuffer::Scale` multiplies every element
by the given factor. -/
def FBScale (a : List ℚ) (s : ℚ) : List ℚ := a.map (· * s)

/-- One pass of the merge loop of `render` (lines 135-149), acting on the
pair (current contents of `*aConfig.mFramebuffer`, `usedRenderers`) with
the observation `o = (WasUsed, GetFramebuffer result)` of one slot: an
unused renderer is skipped; the first used renderer's buffer replaces the
aggregate; every later used one is added elementwise. -/
def mergeStep (acc : List ℚ × ℕ) (o : Bool × List ℚ) : List ℚ × ℕ :=
  if o.1 then
    if acc.2 = 0 then (o.2, 1) else (FBAdd acc.1 o.2, acc.2 + 1)
  else acc

/-- The merge loop of `render` (lines 134-149) over the slot observations
in slot order, starting from the framebuffer's previous contents `fb0`
and `usedRenderers = 0`. -/
def mergeLoop (fb0 : List ℚ) (outs : List (Bool × List ℚ)) : List ℚ × ℕ :=
  outs.foldl mergeStep (fb0, 0)

/-- The partial buffers of the used slots, in slot order. -/
def usedBufs (outs : List (Bool × List ℚ)) : List (List ℚ) :=
  (outs.filter (fun o => o.1)).map (fun o => o.2)

/-- The framebuffer contents `render` leaves in `*aConfig.mFramebuffer`:
the merge loop followed by `Scale(1.f / usedRenderers)` (line 151).
The scale happens unconditionally; when no renderer was used the C code
computes the float `1.f / 0` (infinity) — in this exact-arithmetic model
the factor `1 / 0` is `0`, and either way a buffer is produced rather
than an error. -/
def aggregate (fb0 : List ℚ) (outs : List (Bool × List ℚ)) : List ℚ :=
  FBScale (mergeLoop fb0 outs).1 (1 / ((mergeLoop fb0 outs).2 : ℚ))

/-- `CLOCKS_PER_SEC` of the C library, as used at line 157. -/
def CLOCKS_PER_SEC : ℚ := 1000000

/-- What `render` produces: the final contents of `*aConfig.mFramebuffer`,
the final `usedRenderers` counter, and the returned elapsed-seconds value. -/
structure RenderOutput where
  framebuffer : List ℚ
  usedRenderers : ℕ
  elapsed : ℚ
  deriving DecidableEq, Repr

/-- The `(WasUsed, GetFramebuffer)` observations of slots `0..W-1` after
dispatch, in the order the merge loop visits them.  `fbOf` abstracts
`GetFramebuffer`: the algorithm-specific accumulated contents of an
instance's partial buffer. -/
def workerOuts (fbOf : Renderer → List ℚ) (W : ℕ) (ws : ℕ → Renderer) :
    List (Bool × List ℚ) :=
  (List.range W).map (fun i => ((ws i).WasUsed, fbOf (ws i)))

/-- `render` (lines 73-158).  Parameters beyond the `Config`: `fbOf` is the
algorithm-specific `GetFramebuffer` extraction, `sched` the assignment of
iteration indices to OpenMP workers, `clock` the successive values returned
by `clock()` (read 0 at line 125, read 1 at line 132), and `fb0` the
previous contents of `*aConfig.mFramebuffer`. -/
def render (fbOf : Renderer → List ℚ) (cfg : Config) (sched : ℕ → ℕ)
    (clock : ℕ → ℚ) (fb0 : List ℚ) : RenderOutput :=
  let ws := dispatch sched (numIters cfg) (setupRenderers cfg)
  let outs := workerOuts fbOf cfg.mNumThreads ws
  { framebuffer := aggregate fb0 outs
    usedRenderers := (mergeLoop fb0 outs).2
    elapsed := (clock 1 - clock 0) / CLOCKS_PER_SEC }

/-- The externally observable actions of `render`, in program order. -/
inductive Event
  | construct (i : ℕ)
  | setMaxPathLength (i : ℕ)
  | clockRead
  | runIteration (threadId iter : ℕ)
  | getFramebuffer (i : ℕ)
  | scaleFramebuffer
  | destroy (i : ℕ)
  deriving DecidableEq, Repr

/-- The sequence of actions `render` performs, following the source line
order: construction (82-120), max-path-length assignment (122-123), the
first clock read (125), the dispatched iterations (126-131), the second
clock read (132), the merge extractions (134-149), the scale (151), and
teardown (153-155). -/
def renderTrace (cfg : Config) (sched : ℕ → ℕ) : List Event :=
  let ws := dispatch sched (numIters cfg) (setupRenderers cfg)
  ((List.range cfg.mNumThreads).map (fun i => Event.construct i)) ++
  ((List.range cfg.mNumThreads).map (fun i => Event.setMaxPathLength i)) ++
  [Event.clockRead] ++
  ((List.range (numIters cfg)).map (fun k => Event.runIteration (sched k) k)) ++
  [Event.clockRead] ++
  ((List.range cfg.mNumThreads).filterMap
    (fun i => if (ws i).WasUsed then some (Event.getFramebuffer i) else none)) ++
  [Event.scaleFramebuffer] ++
  ((List.range cfg.mNumThreads).map (fun i => Event.destroy i))

/-- The scene-mask computation of one pass of the batch sweep in `main`
(lines 215-220): the loop index `sceneId2` runs over
`0..2*sceneConfigCount-1`, the table index is `sceneId2 % sceneConfigCount`,
and the glossy-floor flag is OR-ed in when that index is below
`sceneConfigCount`.  `configMask` abstracts the `mMask` column of the
`sceneConfigs` table and `glossyFloorFlag` the `Scene::kGlossyFloor` bit
(scene.hxx is not part of the given source). -/
def sweepMask (configMask : ℕ → ℕ) (glossyFloorFlag : ℕ) (sceneConfigCount : ℕ)
    (sceneId2 : ℕ) : ℕ :=
  let sceneId := sceneId2 % sceneConfigCount
  let mask := configMask sceneId
  if sceneId < sceneConfigCount then mask ||| glossyFloorFlag else mask

/-- The number of entries of the `sceneConfigs` table (lines 183-200). -/
def sceneConfigCount : ℕ := 12

/-- The renderer array as the merge loop sees it: construction, the
max-path-length assignment, then the dispatch loop. -/
def dispatchedRenderers (cfg : Config) (sched : ℕ → ℕ) : ℕ → Renderer :=
  dispatch sched (numIters cfg) (setupRenderers cfg)

/-! ### Basic lemmas about dispatch and setup -/

theorem dispatch_succ (sched : ℕ → ℕ) (n : ℕ) (ws : ℕ → Renderer) :
    dispatch sched (n + 1) ws = dispatchStep sched (dispatch sched n ws) n := by
  unfold dispatch
  rw [List.range_succ, List.foldl_append]
  rfl

/-- After dispatching indices `0..I-1`, a slot has executed exactly the
indices the schedule sent to it, in increasing order, appended to whatever
it had executed before. -/
theorem dispatch_itersRun (sched : ℕ → ℕ) (ws : ℕ → Renderer) (I w : ℕ) :
    (dispatch sched I ws w).itersRun =
      (ws w).itersRun ++ (List.range I).filter (fun k => decide (sched k = w)) := by
  induction I with
  | zero => simp [dispatch]
  | succ n ih =>
    rw [dispatch_succ]
    show (if w = sched n then ((dispatch sched n ws) w).RunIteration n
          else (dispatch sched n ws) w).itersRun = _
    rw [List.range_succ, List.filter_append]
    by_cases h : w = sched n
    · rw [if_pos h]
      show ((dispatch sched n ws) w).itersRun ++ [n] = _
      rw [ih]
      have hf : List.filter (fun k => decide (sched k = w)) [n] = [n] := by
        simp [List.filter_cons, h]
      rw [hf, List.append_assoc]
    · rw [if_neg h]
      rw [ih]
      have hf : List.filter (fun k => decide (sched k = w)) [n] = [] := by
        simp [List.filter_cons]
        exact fun hc => h hc.symm
      rw [hf, List.append_nil]

/-- `RunIteration` does not touch the max-path-length field, so dispatch
preserves it on every slot. -/
theorem dispatch_mMaxPathLength (sched : ℕ → ℕ) (ws : ℕ → Renderer) (I w : ℕ) :
    (dispatch sched I ws w).mMaxPathLength = (ws w).mMaxPathLength := by
  induction I with
  | zero => rfl
  | succ n ih =>
    rw [dispatch_succ]
    show (if w = sched n then ((dispatch sched n ws) w).RunIteration n
          else (dispatch sched n ws) w).mMaxPathLength = _
    by_cases h : w = sched n
    · rw [if_pos h]
      simpa [Renderer.RunIteration] using ih
    · rw [if_neg h]
      exact ih

/-- Every constructor branch leaves the instance with no executed
iterations. -/
theorem setupRenderers_itersRun (cfg : Config) (i : ℕ) :
    (setupRenderers cfg i).itersRun = [] := by
  unfold setupRenderers setMaxPathLengths constructRenderers
  by_cases h : i < cfg.mNumThreads <;> simp [h] <;> cases cfg.mAlgorithm <;> rfl

theorem setupRenderers_mMaxPathLength (cfg : Config) (i : ℕ)
    (h : i < cfg.mNumThreads) :
    (setupRenderers cfg i).mMaxPathLength = cfg.mMaxPathLength := by
  unfold setupRenderers setMaxPathLengths
  rw [if_pos h]

/-! ### C3: per-worker seeding -/

/-- C3, counterexample: the claim quantifies over every algorithm selector
in the closed set, but the `kEyeLight` branch constructs `EyeLight` with
only the scene argument (line 86), so the instance for worker slot 0 is
not seeded with `baseSeed + 0`. -/
theorem C3_eyelight_not_seeded :
    ¬ ((makeRenderer Algorithm.kEyeLight 1234 0).seed = some (1234 + 0)) := by
  decide

/-- C3 as amended: for every algorithm selector other than eye-light and
every worker count W ≥ 1, slot i receives seed `baseSeed + i`, so the
assigned seeds are exactly the list `base, base+1, ..., base+W-1`,
pairwise distinct; the assignment is a pure function of
`(baseSeed, workerCount)`, hence identical across runs. -/
theorem C3_seeds_distinct (alg : Algorithm) (base : ℤ) (W : ℕ)
    (halg : alg ≠ Algorithm.kEyeLight) (_hW : 1 ≤ W) :
    (List.range W).map (fun i => (makeRenderer alg base i).seed) =
      (List.range W).map (fun i : ℕ => some (base + (i : ℤ))) ∧
    ((List.range W).map (fun i => (makeRenderer alg base i).seed)).Nodup := by
  have hseed : ∀ i : ℕ, (makeRenderer alg base i).seed = some (base + (i : ℤ)) := by
    intro i
    cases alg <;> first | exact absurd rfl halg | rfl
  have hmap : (List.range W).map (fun i => (makeRenderer alg base i).seed) =
      (List.range W).map (fun i : ℕ => some (base + (i : ℤ))) :=
    List.map_congr_left (fun i _ => hseed i)
  refine ⟨hmap, ?_⟩
  rw [hmap]
  refine List.Nodup.map ?_ (List.nodup_range W)
  intro a b hab
  have : base + (a : ℤ) = base + (b : ℤ) := by
    simpa using hab
  omega

/-- Witness for C3's amended statement at path tracing, base 1000, W = 4. -/
theorem C3_seeds_distinct_witness :
    (List.range 4).map (fun i => (makeRenderer Algorithm.kPathTracing 1000 i).seed) =
      (List.range 4).map (fun i : ℕ => some (1000 + (i : ℤ))) ∧
    ((List.range 4).map (fun i => (makeRenderer Algorithm.kPathTracing 1000 i).seed)).Nodup :=
  C3_seeds_distinct Algorithm.kPathTracing 1000 4 (by decide) (by decide)

/-! ### C5: single-pass algorithms ignore the configured budget -/

/-- C5: eye-light is the single-pass algorithm (the switch forces
`iterations = 1` in its branch, line 88, "iterations have no meaning for
kEyeLight"); with it selected, a run configured with any iteration budget
I produces the same output, the same action trace, and dispatches exactly
one iteration, just as a run configured with I = 1. -/
theorem C5_single_pass_ignores_budget (cfg : Config) (sched : ℕ → ℕ)
    (fbOf : Renderer → List ℚ) (clock : ℕ → ℚ) (fb0 : List ℚ) (I : ℤ)
    (halg : cfg.mAlgorithm = Algorithm.kEyeLight) :
    render fbOf { cfg with mIterations := I } sched clock fb0 =
      render fbOf { cfg with mIterations := 1 } sched clock fb0 ∧
    renderTrace { cfg with mIterations := I } sched =
      renderTrace { cfg with mIterations := 1 } sched ∧
    numIters { cfg with mIterations := I } = 1 := by
  obtain ⟨alg, its, W, base, mpl⟩ := cfg
  cases halg
  exact ⟨rfl, rfl, rfl⟩

/-- A two-worker eye-light configuration with the given iteration budget,
used as a concrete instance in witnesses. -/
def cfgEyeLight (I : ℤ) : Config := ⟨Algorithm.kEyeLight, I, 2, 0, 5⟩

/-- Witness for C5 at a concrete configuration with budget 42. -/
theorem C5_single_pass_ignores_budget_witness :
    render (fun _ => []) (cfgEyeLight 42) (fun _ => 0) (fun _ => 0) [] =
      render (fun _ => []) (cfgEyeLight 1) (fun _ => 0) (fun _ => 0) [] ∧
    renderTrace (cfgEyeLight 42) (fun _ => 0) =
      renderTrace (cfgEyeLight 1) (fun _ => 0) ∧
    numIters (cfgEyeLight 42) = 1 :=
  C5_single_pass_ignores_budget (cfgEyeLight 0) (fun _ => 0) (fun _ => [])
    (fun _ => 0) [] 42 rfl

/-! ### C7: uniform max-path-length assignment -/

/-- C7: after the construction switch and the assignment loop of lines
122-123, and unchanged by any later dispatch, every one of the W renderer
instances carries the configured max-path-length bound. -/
theorem C7_max_path_length_uniform (cfg : Config) (sched : ℕ → ℕ) (I i : ℕ)
    (hi : i < cfg.mNumThreads) :
    (setupRenderers cfg i).mMaxPathLength = cfg.mMaxPathLength ∧
    (dispatch sched I (setupRenderers cfg) i).mMaxPathLength = cfg.mMaxPathLength := by
  have h := setupRenderers_mMaxPathLength cfg i hi
  exact ⟨h, by rw [dispatch_mMaxPathLength]; exact h⟩

/-- A three-worker vertex-connection-merging configuration used as a
concrete instance in witnesses. -/
def cfgVcm : Config := ⟨Algorithm.kVertexConnectionMerging, 10, 3, 1234, 10⟩

/-- Witness for C7 at a concrete configuration, slot 1 of 3 workers. -/
theorem C7_max_path_length_uniform_witness :
    (setupRenderers cfgVcm 1).mMaxPathLength = cfgVcm.mMaxPathLength ∧
    (dispatch (fun k => k % 3) 4 (setupRenderers cfgVcm) 1).mMaxPathLength =
      cfgVcm.mMaxPathLength :=
  C7_max_path_length_uniform cfgVcm (fun k => k % 3) 4 1 (by decide)

/-! ### Merge-loop lemmas -/

/-- Once the counter is positive, the rest of the merge loop adds every
remaining used buffer elementwise and counts it. -/
theorem foldl_mergeStep_pos (outs : List (Bool × List ℚ)) :
    ∀ (b : List ℚ) (n : ℕ), n ≠ 0 →
      outs.foldl mergeStep (b, n) =
        ((usedBufs outs).foldl FBAdd b, n + (usedBufs outs).length) := by
  induction outs with
  | nil =>
    intro b n hn
    simp [usedBufs]
  | cons o t ih =>
    intro b n hn
    by_cases h : o.1
    · have hstep : mergeStep (b, n) o = (FBAdd b o.2, n + 1) := by
        simp [mergeStep, h, hn]
      have hu : usedBufs (o :: t) = o.2 :: usedBufs t := by
        simp [usedBufs, List.filter_cons, h]
      rw [List.foldl_cons, hstep, ih (FBAdd b o.2) (n + 1) (by omega), hu]
      simp [List.foldl_cons]
      omega
    · have hstep : mergeStep (b, n) o = (b, n) := by
        simp [mergeStep, h]
      have hu : usedBufs (o :: t) = usedBufs t := by
        simp [usedBufs, List.filter_cons, h]
      rw [List.foldl_cons, hstep, ih b n hn, hu]

/-- The merge loop of `render`, described by the used buffers in slot
order: if none is used, the framebuffer keeps its previous contents and
the counter stays 0; otherwise the first used buffer replaces the
contents and each later one is added, the counter ending at the number
of used slots. -/
theorem mergeLoop_spec (fb0 : List ℚ) (outs : List (Bool × List ℚ)) :
    mergeLoop fb0 outs =
      match usedBufs outs with
      | [] => (fb0, 0)
      | b :: t => (t.foldl FBAdd b, t.length + 1) := by
  induction outs with
  | nil => simp [mergeLoop, usedBufs]
  | cons o t ih =>
    by_cases h : o.1
    · have hu : usedBufs (o :: t) = o.2 :: usedBufs t := by
        simp [usedBufs, List.filter_cons, h]
      have hstep : mergeStep (fb0, 0) o = (o.2, 1) := by
        simp [mergeStep, h]
      show List.foldl mergeStep (fb0, 0) (o :: t) = _
      rw [List.foldl_cons, hstep, foldl_mergeStep_pos t o.2 1 (by omega), hu]
      simp [Nat.add_comm]
    · have hu : usedBufs (o :: t) = usedBufs t := by
        simp [usedBufs, List.filter_cons, h]
      have hskip : mergeLoop fb0 (o :: t) = mergeLoop fb0 t := by
        show List.foldl mergeStep (fb0, 0) (o :: t) = _
        rw [List.foldl_cons]
        congr 1
        simp [mergeStep, h]
      rw [hskip, ih, hu]

theorem mergeLoop_of_usedBufs_nil (fb0 : List ℚ) (outs : List (Bool × List ℚ))
    (h : usedBufs outs = []) : mergeLoop fb0 outs = (fb0, 0) := by
  have hs := mergeLoop_spec fb0 outs
  rw [h] at hs
  exact hs

theorem mergeLoop_of_usedBufs_cons (fb0 : List ℚ) (outs : List (Bool × List ℚ))
    (b : List ℚ) (t : List (List ℚ)) (h : usedBufs outs = b :: t) :
    mergeLoop fb0 outs = (t.foldl FBAdd b, t.length + 1) := by
  have hs := mergeLoop_spec fb0 outs
  rw [h] at hs
  exact hs

/-- The `usedRenderers` counter ends at the number of used slots. -/
theorem mergeLoop_count (fb0 : List ℚ) (outs : List (Bool × List ℚ)) :
    (mergeLoop fb0 outs).2 = (usedBufs outs).length := by
  cases h : usedBufs outs with
  | nil => rw [mergeLoop_of_usedBufs_nil fb0 outs h]; rfl
  | cons b t => rw [mergeLoop_of_usedBufs_cons fb0 outs b t h]; rfl

/-! ### Elementwise lemmas about the framebuffer operations -/

theorem FBAdd_length (a b : List ℚ) : (FBAdd a b).length = min a.length b.length :=
  List.length_zipWith _ _ _

theorem FBAdd_getD (a b : List ℚ) (k : ℕ) (ha : k < a.length) (hb : k < b.length) :
    (FBAdd a b).getD k 0 = a.getD k 0 + b.getD k 0 := by
  rw [List.getD_eq_getElem?_getD, List.getD_eq_getElem?_getD,
    List.getD_eq_getElem?_getD, FBAdd, List.getElem?_zipWith,
    List.getElem?_eq_getElem ha, List.getElem?_eq_getElem hb]
  rfl

theorem FBScale_length (a : List ℚ) (s : ℚ) : (FBScale a s).length = a.length :=
  List.length_map _ _

theorem FBScale_getD (a : List ℚ) (s : ℚ) (k : ℕ) (hk : k < a.length) :
    (FBScale a s).getD k 0 = a.getD k 0 * s := by
  rw [List.getD_eq_getElem?_getD, List.getD_eq_getElem?_getD, FBScale,
    List.getElem?_map, List.getElem?_eq_getElem hk]
  rfl

theorem foldl_FBAdd_length (t : List (List ℚ)) :
    ∀ (a : List ℚ) (L : ℕ), a.length = L → (∀ b ∈ t, b.length = L) →
      (t.foldl FBAdd a).length = L := by
  induction t with
  | nil =>
    intro a L ha _
    simpa using ha
  | cons b t ih =>
    intro a L ha hb
    rw [List.foldl_cons]
    refine ih (FBAdd a b) L ?_ (fun c hc => hb c (by simp [hc]))
    rw [FBAdd_length, ha, hb b (by simp)]
    simp

/-- The fold of elementwise additions computes, at each index below the
common length, the sum of the entries there. -/
theorem foldl_FBAdd_getD (t : List (List ℚ)) :
    ∀ (a : List ℚ) (L k : ℕ), a.length = L → (∀ b ∈ t, b.length = L) → k < L →
      (t.foldl FBAdd a).getD k 0 =
        a.getD k 0 + (t.map (fun b => b.getD k 0)).sum := by
  induction t with
  | nil =>
    intro a L k _ _ _
    simp
  | cons b t ih =>
    intro a L k ha hb hk
    have hbL : b.length = L := hb b (by simp)
    have habL : (FBAdd a b).length = L := by
      rw [FBAdd_length, ha, hbL]
      simp
    rw [List.foldl_cons,
      ih (FBAdd a b) L k habL (fun c hc => hb c (by simp [hc])) hk,
      FBAdd_getD a b k (by omega) (by omega)]
    simp [List.map_cons, List.sum_cons]
    ring

/-! ### C1: the aggregate is the unweighted mean over used instances -/

/-- C1: when at least one instance is used and the used partial buffers
share length L, the framebuffer `render` leaves behind is, at every index
k < L, the arithmetic mean of the used buffers' entries at k: the first
used buffer replaces the aggregate (the previous contents `fb0` do not
appear), later used ones are added, the result is scaled by 1 over the
number of used instances, and unused instances neither contribute an
entry nor enlarge the denominator. -/
theorem C1_aggregate_unweighted_mean (fb0 : List ℚ) (outs : List (Bool × List ℚ))
    (L k : ℕ) (hL : ∀ o ∈ outs, o.1 = true → o.2.length = L)
    (hne : usedBufs outs ≠ []) (hk : k < L) :
    (aggregate fb0 outs).getD k 0 =
      ((usedBufs outs).map (fun b => b.getD k 0)).sum /
        ((usedBufs outs).length : ℚ) ∧
    (aggregate fb0 outs).length = L ∧
    (mergeLoop fb0 outs).2 = (usedBufs outs).length := by
  have hlen : ∀ b ∈ usedBufs outs, b.length = L := by
    intro b hb
    simp only [usedBufs, List.mem_map, List.mem_filter] at hb
    obtain ⟨o, ⟨ho, hu⟩, rfl⟩ := hb
    exact hL o ho hu
  obtain ⟨b, t, heq⟩ : ∃ b t, usedBufs outs = b :: t := by
    cases h : usedBufs outs with
    | nil => exact absurd h hne
    | cons b t => exact ⟨b, t, rfl⟩
  have hml := mergeLoop_of_usedBufs_cons fb0 outs b t heq
  have hbL : b.length = L := hlen b (by rw [heq]; simp)
  have htL : ∀ c ∈ t, c.length = L := fun c hc => hlen c (by rw [heq]; simp [hc])
  have hfl : (t.foldl FBAdd b).length = L := foldl_FBAdd_length t b L hbL htL
  refine ⟨?_, ?_, mergeLoop_count fb0 outs⟩
  · rw [aggregate, hml]
    show (FBScale (t.foldl FBAdd b) (1 / ((t.length + 1 : ℕ) : ℚ))).getD k 0 = _
    rw [FBScale_getD _ _ _ (by omega), foldl_FBAdd_getD t b L k hbL htL hk, heq]
    simp only [List.map_cons, List.sum_cons, List.length_cons]
    rw [mul_one_div]
  · rw [aggregate, hml]
    show (FBScale (t.foldl FBAdd b) (1 / ((t.length + 1 : ℕ) : ℚ))).length = L
    rw [FBScale_length]
    exact hfl

/-- Witness for C1, the spec's aggregation example enlarged with an unused
slot: used buffers [2,4] and [6,0], an unused slot with buffer [7], and
previous framebuffer contents [9,9]; the aggregate is [4,2]. -/
theorem C1_aggregate_unweighted_mean_witness :
    (aggregate [9, 9] [(true, [2, 4]), (false, [7]), (true, [6, 0])]).getD 0 0 =
      ((usedBufs [(true, [2, 4]), (false, [7]), (true, [6, 0])]).map
          (fun b => b.getD 0 0)).sum /
        ((usedBufs [(true, [2, 4]), (false, [7]), (true, [6, 0])]).length : ℚ) ∧
    (aggregate [9, 9] [(true, [2, 4]), (false, [7]), (true, [6, 0])]).length = 2 ∧
    (mergeLoop [9, 9] [(true, [2, 4]), (false, [7]), (true, [6, 0])]).2 =
      (usedBufs [(true, [2, 4]), (false, [7]), (true, [6, 0])]).length :=
  C1_aggregate_unweighted_mean [9, 9]
    [(true, [2, 4]), (false, [7]), (true, [6, 0])] 2 0
    (by decide) (by decide) (by decide)

/-! ### C2: a run with no used worker -/

/-- A one-worker path-tracing configuration with iteration budget 0. -/
def cfgZeroBudget : Config := ⟨Algorithm.kPathTracing, 0, 1, 1234, 10⟩

/-- C2 fails on the code: with iteration budget 0 no worker ever runs an
iteration, yet `render` raises nothing.  The merge loop leaves the
framebuffer's previous contents [3,5] in place with `usedRenderers = 0`,
and line 151 still executes `Scale(1.f / 0)` — an infinite scale factor
in the C float semantics, the factor `1 / 0 = 0` of exact arithmetic
here — and `render` returns a buffer normally. -/
theorem C2_zero_budget_returns_buffer :
    (render (fun _ => [1, 1]) cfgZeroBudget (fun _ => 0) (fun _ => 0)
        [3, 5]).usedRenderers = 0 ∧
    (render (fun _ => [1, 1]) cfgZeroBudget (fun _ => 0) (fun _ => 0)
        [3, 5]).framebuffer = [0, 0] := by
  have h0 : usedBufs (workerOuts (fun _ => [1, 1]) cfgZeroBudget.mNumThreads
      (dispatch (fun _ => 0) (numIters cfgZeroBudget)
        (setupRenderers cfgZeroBudget))) = [] := by
    decide
  constructor
  · show (mergeLoop [3, 5] (workerOuts (fun _ => [1, 1]) cfgZeroBudget.mNumThreads
        (dispatch (fun _ => 0) (numIters cfgZeroBudget)
          (setupRenderers cfgZeroBudget)))).2 = 0
    rw [mergeLoop_of_usedBufs_nil _ _ h0]
  · show aggregate [3, 5] (workerOuts (fun _ => [1, 1]) cfgZeroBudget.mNumThreads
        (dispatch (fun _ => 0) (numIters cfgZeroBudget)
          (setupRenderers cfgZeroBudget))) = [0, 0]
    rw [aggregate, mergeLoop_of_usedBufs_nil _ _ h0]
    norm_num [FBScale]

/-! ### C4: every iteration index dispatched exactly once -/

/-- The iteration indices land on the workers in a partition: summing, over
the worker pool, the number of indices the schedule sends to each worker
recovers the total iteration count. -/
theorem sum_countP_sched (sched : ℕ → ℕ) (W : ℕ) (hs : ∀ i, sched i < W) :
    ∀ I : ℕ,
      (∑ w ∈ Finset.range W,
        (List.range I).countP (fun k => decide (sched k = w))) = I := by
  intro I
  induction I with
  | zero => simp
  | succ n ih =>
    have hcount : ∀ w, (List.range (n + 1)).countP (fun k => decide (sched k = w)) =
        (List.range n).countP (fun k => decide (sched k = w)) +
          (if sched n = w then 1 else 0) := by
      intro w
      rw [List.range_succ, List.countP_append]
      by_cases h : sched n = w <;> simp [List.countP_cons, h]
    calc (∑ w ∈ Finset.range W,
            (List.range (n + 1)).countP (fun k => decide (sched k = w)))
        = (∑ w ∈ Finset.range W,
            ((List.range n).countP (fun k => decide (sched k = w)) +
              (if sched n = w then 1 else 0))) :=
          Finset.sum_congr rfl (fun w _ => hcount w)
      _ = (∑ w ∈ Finset.range W,
            (List.range n).countP (fun k => decide (sched k = w))) +
          (∑ w ∈ Finset.range W, if sched n = w then 1 else 0) :=
          Finset.sum_add_distrib
      _ = n + 1 := by
          rw [ih, Finset.sum_ite_eq]
          simp [Finset.mem_range.mpr (hs n)]

/-- C4: for every valid schedule, worker count W ≥ 1 and effective budget
I ≥ 1, the dispatch phase performs exactly I iteration calls in total (the
per-worker call counts sum to I), every index below I is executed by
exactly one worker, and no executed index lies outside 0..I-1. -/
theorem C4_each_index_exactly_once (cfg : Config) (sched : ℕ → ℕ)
    (hs : ∀ i, sched i < cfg.mNumThreads) (_hW : 1 ≤ cfg.mNumThreads)
    (_hI : 1 ≤ numIters cfg) :
    (∑ w ∈ Finset.range cfg.mNumThreads,
      ((dispatchedRenderers cfg sched w).itersRun).length) = numIters cfg ∧
    (∀ k, k < numIters cfg →
      ∃! w, w < cfg.mNumThreads ∧ k ∈ (dispatchedRenderers cfg sched w).itersRun) ∧
    (∀ w k, k ∈ (dispatchedRenderers cfg sched w).itersRun → k < numIters cfg) := by
  have hrun : ∀ w, (dispatchedRenderers cfg sched w).itersRun =
      (List.range (numIters cfg)).filter (fun k => decide (sched k = w)) := by
    intro w
    rw [dispatchedRenderers, dispatch_itersRun, setupRenderers_itersRun]
    rfl
  refine ⟨?_, ?_, ?_⟩
  · calc (∑ w ∈ Finset.range cfg.mNumThreads,
            ((dispatchedRenderers cfg sched w).itersRun).length)
        = (∑ w ∈ Finset.range cfg.mNumThreads,
            (List.range (numIters cfg)).countP (fun k => decide (sched k = w))) :=
          Finset.sum_congr rfl
            (fun w _ => by rw [hrun w, List.countP_eq_length_filter])
      _ = numIters cfg := sum_countP_sched sched cfg.mNumThreads hs (numIters cfg)
  · intro k hk
    refine ⟨sched k, ⟨hs k, ?_⟩, ?_⟩
    · rw [hrun]
      exact List.mem_filter.mpr ⟨List.mem_range.mpr hk, by simp⟩
    · intro y hy
      obtain ⟨-, hmem⟩ := hy
      rw [hrun] at hmem
      have := (List.mem_filter.mp hmem).2
      simp at this
      omega
  · intro w k hmem
    rw [hrun] at hmem
    exact List.mem_range.mp (List.mem_filter.mp hmem).1

/-- A four-worker path-tracing configuration with budget 8 and base seed
1000 (the spec's scenario), used as a concrete witness instance. -/
def cfgPathTracing8 : Config := ⟨Algorithm.kPathTracing, 8, 4, 1000, 10⟩

/-- Witness for C4 with the round-robin schedule on 4 workers. -/
theorem C4_each_index_exactly_once_witness :
    (∑ w ∈ Finset.range cfgPathTracing8.mNumThreads,
      ((dispatchedRenderers cfgPathTracing8 (fun k => k % 4) w).itersRun).length) =
        numIters cfgPathTracing8 ∧
    (∀ k, k < numIters cfgPathTracing8 →
      ∃! w, w < cfgPathTracing8.mNumThreads ∧
        k ∈ (dispatchedRenderers cfgPathTracing8 (fun k => k % 4) w).itersRun) ∧
    (∀ w k, k ∈ (dispatchedRenderers cfgPathTracing8 (fun k => k % 4) w).itersRun →
      k < numIters cfgPathTracing8) :=
  C4_each_index_exactly_once cfgPathTracing8 (fun k => k % 4)
    (fun k => Nat.mod_lt k (by decide)) (by decide) (by decide)

/-! ### C9: eye-light always uses exactly one renderer -/

/-- The number of used slot observations equals the number of used slots. -/
theorem usedBufs_workerOuts_length (fbOf : Renderer → List ℚ) (W : ℕ)
    (ws : ℕ → Renderer) :
    (usedBufs (workerOuts fbOf W ws)).length =
      ((List.range W).filter (fun i => (ws i).WasUsed)).length := by
  rw [usedBufs, workerOuts, List.filter_map, List.length_map, List.length_map]
  rfl

/-- A list `0..W-1` filtered for equality with a member holds exactly that
member. -/
theorem length_filter_range_eq (a W : ℕ) (h : a < W) :
    ((List.range W).filter (fun i => decide (a = i))).length = 1 := by
  induction W with
  | zero => omega
  | succ n ih =>
    rw [List.range_succ, List.filter_append]
    by_cases hn : a = n
    · have h1 : (List.range n).filter (fun i => decide (a = i)) = [] := by
        rw [List.filter_eq_nil_iff]
        intro i hi
        have hlt := List.mem_range.mp hi
        simp only [decide_eq_true_eq]
        omega
      have h2 : List.filter (fun i => decide (a = i)) [n] = [n] := by
        simp [List.filter_cons, hn]
      rw [h1, h2]
      rfl
    · have h2 := ih (by omega)
      simp [List.filter_cons, hn, List.length_append, h2]

/-- C9: for the eye-light selector the effective budget is 1 whatever the
configured budget (zero and negative included), so exactly one iteration
is dispatched, exactly one renderer instance ends up used, and the
normalization divisor `usedRenderers` is 1, never 0. -/
theorem C9_eyelight_one_renderer_used (cfg : Config) (sched : ℕ → ℕ)
    (fbOf : Renderer → List ℚ) (clock : ℕ → ℚ) (fb0 : List ℚ)
    (halg : cfg.mAlgorithm = Algorithm.kEyeLight)
    (_hW : 1 ≤ cfg.mNumThreads) (hs : ∀ i, sched i < cfg.mNumThreads) :
    numIters cfg = 1 ∧
    (render fbOf cfg sched clock fb0).usedRenderers = 1 := by
  have hI : numIters cfg = 1 := by
    simp [numIters, effectiveIterations, halg]
  refine ⟨hI, ?_⟩
  have hused : ∀ i, (dispatch sched (numIters cfg) (setupRenderers cfg) i).WasUsed =
      decide (sched 0 = i) := by
    intro i
    rw [Renderer.WasUsed, dispatch_itersRun, setupRenderers_itersRun, hI]
    have hr1 : List.range 1 = [0] := rfl
    rw [hr1]
    by_cases h : sched 0 = i <;> simp [List.filter_cons, h]
  show (mergeLoop fb0 (workerOuts fbOf cfg.mNumThreads
      (dispatch sched (numIters cfg) (setupRenderers cfg)))).2 = 1
  rw [mergeLoop_count, usedBufs_workerOuts_length,
    List.filter_congr (fun i _ => hused i),
    length_filter_range_eq (sched 0) cfg.mNumThreads (hs 0)]

/-- Witness for C9 at a two-worker eye-light configuration with a negative
configured budget. -/
theorem C9_eyelight_one_renderer_used_witness :
    numIters (cfgEyeLight (-3)) = 1 ∧
    (render (fun _ => [1, 1]) (cfgEyeLight (-3)) (fun _ => 0) (fun _ => 0)
        []).usedRenderers = 1 :=
  C9_eyelight_one_renderer_used (cfgEyeLight (-3)) (fun _ => 0) (fun _ => [1, 1])
    (fun _ => 0) [] rfl (by decide)
    (by intro i; show 0 < (cfgEyeLight (-3)).mNumThreads; decide)

/-! ### C8: the timer brackets only the dispatch phase -/

/-- C8: in the action sequence of `render`, the two clock reads enclose
exactly the dispatched iteration calls — everything before the first read
and after the second (construction, max-path-length assignment, merge,
scale, teardown) is not an iteration call; the elapsed value is the
difference of the two reads divided by `CLOCKS_PER_SEC`; and neither the
framebuffer contents nor the used-renderer count depends on the clock. -/
theorem C8_timer_brackets_dispatch_only (cfg : Config) (sched : ℕ → ℕ) :
    (∃ pre post,
      renderTrace cfg sched =
        pre ++ [Event.clockRead] ++
          ((List.range (numIters cfg)).map (fun k => Event.runIteration (sched k) k)) ++
          ([Event.clockRead] ++ post) ∧
      (∀ e ∈ pre, ∀ t k, e ≠ Event.runIteration t k) ∧
      (∀ e ∈ post, ∀ t k, e ≠ Event.runIteration t k)) ∧
    (∀ (fbOf : Renderer → List ℚ) (clock1 clock2 : ℕ → ℚ) (fb0 : List ℚ),
      (render fbOf cfg sched clock1 fb0).framebuffer =
        (render fbOf cfg sched clock2 fb0).framebuffer ∧
      (render fbOf cfg sched clock1 fb0).usedRenderers =
        (render fbOf cfg sched clock2 fb0).usedRenderers) ∧
    (∀ (fbOf : Renderer → List ℚ) (clock : ℕ → ℚ) (fb0 : List ℚ),
      (render fbOf cfg sched clock fb0).elapsed =
        (clock 1 - clock 0) / CLOCKS_PER_SEC) := by
  refine ⟨⟨((List.range cfg.mNumThreads).map (fun i => Event.construct i)) ++
      ((List.range cfg.mNumThreads).map (fun i => Event.setMaxPathLength i)),
      ((List.range cfg.mNumThreads).filterMap
        (fun i => if (dispatch sched (numIters cfg) (setupRenderers cfg) i).WasUsed
          then some (Event.getFramebuffer i) else none)) ++
        ([Event.scaleFramebuffer] ++
          ((List.range cfg.mNumThreads).map (fun i => Event.destroy i))),
      ?_, ?_, ?_⟩, ?_, ?_⟩
  · show renderTrace cfg sched = _
    simp [renderTrace, List.append_assoc]
  · intro e he t k
    rcases List.mem_append.mp he with h | h <;>
      · obtain ⟨i, -, rfl⟩ := List.mem_map.mp h
        simp
  · intro e he t k
    rcases List.mem_append.mp he with h | h
    · obtain ⟨i, -, hfi⟩ := List.mem_filterMap.mp h
      by_cases hu : (dispatch sched (numIters cfg) (setupRenderers cfg) i).WasUsed
      · rw [if_pos hu] at hfi
        injection hfi with hfi
        subst hfi
        simp
      · rw [if_neg hu] at hfi
        exact absurd hfi (by simp)
    · rcases List.mem_append.mp h with h2 | h2
      · have : e = Event.scaleFramebuffer := by simpa using h2
        subst this
        simp
      · obtain ⟨i, -, rfl⟩ := List.mem_map.mp h2
        simp
  · intro fbOf clock1 clock2 fb0
    exact ⟨rfl, rfl⟩
  · intro fbOf clock fb0
    rfl

/-! ### C10: the doubled scene sweep is always glossy -/

/-- C10: in the batch sweep of `main`, the reduced index
`sceneId = sceneId2 % sceneConfigCount` is always below
`sceneConfigCount`, so the guard of line 219 holds on every pass and the
glossy-floor flag is OR-ed into the mask unconditionally; consequently
the second half of the doubled sweep builds exactly the masks of the
first half rather than a non-glossy variant. -/
theorem C10_sweep_always_glossy (configMask : ℕ → ℕ)
    (glossyFloorFlag count sceneId2 : ℕ) (hcount : 0 < count) :
    sceneId2 % count < count ∧
    sweepMask configMask glossyFloorFlag count sceneId2 =
      configMask (sceneId2 % count) ||| glossyFloorFlag ∧
    sweepMask configMask glossyFloorFlag count (sceneId2 + count) =
      sweepMask configMask glossyFloorFlag count sceneId2 := by
  have h : sceneId2 % count < count := Nat.mod_lt _ hcount
  refine ⟨h, ?_, ?_⟩
  · simp [sweepMask, h]
  · simp [sweepMask, Nat.add_mod_right]

/-- Witness for C10 at the source's table size 12, pass 13 (the second
half of the sweep), with an arbitrary concrete mask table and flag. -/
theorem C10_sweep_always_glossy_witness :
    13 % sceneConfigCount < sceneConfigCount ∧
    sweepMask (fun i => i) 64 sceneConfigCount 13 =
      (fun i => i) (13 % sceneConfigCount) ||| 64 ∧
    sweepMask (fun i => i) 64 sceneConfigCount (13 + sceneConfigCount) =
      sweepMask (fun i => i) 64 sceneConfigCount 13 :=
  C10_sweep_always_glossy (fun i => i) 64 sceneConfigCount 13 (by decide)

end SmallVCM
